import Mathlib

/-!
# Verification of shell_gpt's command-safety classifier and REPL loop

A shallow embedding, in Lean 4, of the core decision logic of the
`shell_gpt` repository:

* `src/sgpt/command_safety.py` — the safety classifier
  `is_safe_to_auto_execute`, the default configuration, and the four
  list-mutation operations;
* `src/sgpt/handlers/repl_handler.py` — the REPL loop (`handle`,
  `_get_multiline_input`), modelled as a state machine over the input
  line stream producing a trace of observable events;
* `src/sgpt/handlers/question_handler.py` — the `??`-marker prompt
  cleaning in `QuestionHandler.handle`.

Python's file-backed configuration is modelled by explicit state
passing of a `SafetyConfig` value; `shlex.split` (the standard-library
tokenizer the classifier calls) is modelled by a character-level state
machine with the same observable behaviour in POSIX mode with
whitespace splitting: quotes respected, backslash escapes, `none` on a
malformed input (unterminated quote or trailing escape), mirroring the
`ValueError` that the Python code catches.
-/

namespace SGpt

/-- A loaded safety configuration: the two command lists of
`command_safety.yaml`.  `load_safety_config` guarantees both keys are
present, so the model is a structure with both lists. -/
structure SafetyConfig where
  alwaysConfirm : List String
  alwaysApprove : List String
deriving Repr, DecidableEq

/-- `DEFAULT_SAFETY_CONFIG` from `src/sgpt/command_safety.py`. -/
def DEFAULT_SAFETY_CONFIG : SafetyConfig :=
  { alwaysConfirm :=
      ["rm", "sudo", "chmod", "chown", "mv", "mkfs", "dd",
       ">", "|", "wget", "curl", "apt", "apt-get",
       "yum", "brew", "pip", "npm", "yarn",
       "shutdown", "reboot", "eval"]
    alwaysApprove :=
      ["ls", "cd", "echo", "pwd", "cat", "grep"] }

/-- The test configuration used by `test_is_safe_to_auto_execute` in
`src/tests/test_command_safety.py` (mocked in place of the loaded
config). -/
def TEST_SAFETY_CONFIG : SafetyConfig :=
  { alwaysConfirm := ["rm", "sudo", "mv"]
    alwaysApprove := ["ls", "echo", "pwd"] }

/-- Python whitespace for `str.strip()` / `str.isspace` (ASCII range). -/
def isPyWs (c : Char) : Bool :=
  c = ' ' || c = '\t' || c = '\n' || c = '\r' || c = '\x0b' || c = '\x0c'

/-- Truthiness of `command.strip()` being empty: every character is
whitespace.  Models the `if not command.strip()` guard. -/
def pyStripEmpty (s : String) : Bool :=
  s.data.all isPyWs

/-- Whitespace recognised by `shlex` (its `whitespace` attribute). -/
def isShWs (c : Char) : Bool :=
  c = ' ' || c = '\t' || c = '\r' || c = '\n'

/-- Lexer states of the `shlex.split` model. -/
inductive ShState
  | norm      -- outside quotes
  | inSingle  -- inside '...'
  | inDouble  -- inside "..."
  | escNorm   -- after \ outside quotes
  | escDouble -- after \ inside "..."
deriving Repr, DecidableEq

/-- Append the pending token (if a token is open) to the accumulator. -/
def flushTok (cur : Option String) (acc : List String) : List String :=
  match cur with
  | none => acc
  | some w => w :: acc

/-- Character-level model of Python's `shlex.split` (POSIX mode,
whitespace splitting, no comments): structural recursion over the
character list; `none` models the `ValueError` raised on an
unterminated quote or a trailing escape character. -/
def shlexAux : ShState → Option String → List String → List Char → Option (List String)
  | .norm, cur, acc, [] => some (flushTok cur acc).reverse
  | .norm, cur, acc, c :: cs =>
    if isShWs c then shlexAux .norm none (flushTok cur acc) cs
    else if c = '\'' then shlexAux .inSingle (some (cur.getD "")) acc cs
    else if c = '"' then shlexAux .inDouble (some (cur.getD "")) acc cs
    else if c = '\\' then shlexAux .escNorm (some (cur.getD "")) acc cs
    else shlexAux .norm (some ((cur.getD "").push c)) acc cs
  | .inSingle, _, _, [] => none
  | .inSingle, cur, acc, c :: cs =>
    if c = '\'' then shlexAux .norm cur acc cs
    else shlexAux .inSingle (some ((cur.getD "").push c)) acc cs
  | .inDouble, _, _, [] => none
  | .inDouble, cur, acc, c :: cs =>
    if c = '"' then shlexAux .norm cur acc cs
    else if c = '\\' then shlexAux .escDouble cur acc cs
    else shlexAux .inDouble (some ((cur.getD "").push c)) acc cs
  | .escNorm, _, _, [] => none
  | .escNorm, cur, acc, c :: cs =>
    shlexAux .norm (some ((cur.getD "").push c)) acc cs
  | .escDouble, _, _, [] => none
  | .escDouble, cur, acc, c :: cs =>
    if c = '"' || c = '\\' then
      shlexAux .inDouble (some ((cur.getD "").push c)) acc cs
    else
      shlexAux .inDouble (some (((cur.getD "").push '\\').push c)) acc cs

/-- Model of `shlex.split(command)`: `none` when the Python call raises. -/
def shlexSplit (s : String) : Option (List String) :=
  shlexAux .norm none [] s.data

/-- `needle` starts `haystack` (on character lists). -/
def startsWithL : List Char → List Char → Bool
  | [], _ => true
  | _ :: _, [] => false
  | p :: ps, s :: ss => p = s && startsWithL ps ss

/-- Substring test on character lists, models Python's `in` on strings. -/
def substrL (p : List Char) : List Char → Bool
  | [] => p.isEmpty
  | s :: ss => startsWithL p (s :: ss) || substrL p ss

/-- `pattern in command` for Python strings. -/
def substrB (pat s : String) : Bool :=
  substrL pat.data s.data

/-- `is_safe_to_auto_execute` from `src/sgpt/command_safety.py`, with the
configuration returned by `load_safety_config()` passed explicitly.
The `try`/`except` around tokenization is the `none` branch of the
match (only `shlex.split` can raise inside the `try`). -/
def is_safe_to_auto_execute (cfg : SafetyConfig) (command : String)
    (auto_approve : Bool) : Bool :=
  if !auto_approve then false
  else if pyStripEmpty command then true
  else
    match shlexSplit command with
    | none => false
    | some [] => true
    | some (base_cmd :: _) =>
      if cfg.alwaysApprove.contains base_cmd then true
      else if cfg.alwaysConfirm.contains base_cmd then false
      else if cfg.alwaysConfirm.any (fun pat => substrB pat command) then false
      else true

/-- The body of the `for cmd in commands` loop shared by the two add
operations: append `cmd` unless already present. -/
def appendMissing (l : List String) (cmd : String) : List String :=
  if l.contains cmd then l else l ++ [cmd]

/-- `add_to_approve_list` from `src/sgpt/command_safety.py`: append each
command not already present, then save; load/save modelled by state
passing. -/
def add_to_approve_list (cfg : SafetyConfig) (commands : List String) :
    SafetyConfig :=
  { cfg with alwaysApprove := commands.foldl appendMissing cfg.alwaysApprove }

/-- `add_to_confirm_list` from `src/sgpt/command_safety.py`. -/
def add_to_confirm_list (cfg : SafetyConfig) (commands : List String) :
    SafetyConfig :=
  { cfg with alwaysConfirm := commands.foldl appendMissing cfg.alwaysConfirm }

/-- `remove_from_approve_list` from `src/sgpt/command_safety.py`. -/
def remove_from_approve_list (cfg : SafetyConfig) (commands : List String) :
    SafetyConfig :=
  { cfg with alwaysApprove :=
      cfg.alwaysApprove.filter (fun cmd => !commands.contains cmd) }

/-- `remove_from_confirm_list` from `src/sgpt/command_safety.py`. -/
def remove_from_confirm_list (cfg : SafetyConfig) (commands : List String) :
    SafetyConfig :=
  { cfg with alwaysConfirm :=
      cfg.alwaysConfirm.filter (fun cmd => !commands.contains cmd) }

/-! ## Lemmas about the classifier -/

/-- Running the lexer in the `norm` state over whitespace-only input
never fails: Python whitespace characters are neither quotes nor the
escape character. -/
lemma shlexAux_norm_of_all_pyws (l : List Char) (h : l.all isPyWs = true) :
    ∀ cur acc, ∃ r, shlexAux .norm cur acc l = some r := by
  induction l with
  | nil => exact fun cur acc => ⟨(flushTok cur acc).reverse, rfl⟩
  | cons c cs ih =>
    intro cur acc
    simp only [List.all_cons, Bool.and_eq_true] at h
    obtain ⟨hc, hcs⟩ := h
    have h1 : ¬ (c = '\'') := fun heq => by
      rw [heq] at hc; exact absurd hc (by decide)
    have h2 : ¬ (c = '"') := fun heq => by
      rw [heq] at hc; exact absurd hc (by decide)
    have h3 : ¬ (c = '\\') := fun heq => by
      rw [heq] at hc; exact absurd hc (by decide)
    simp only [shlexAux]
    by_cases hws : isShWs c = true
    · rw [if_pos hws]
      exact ih hcs none (flushTok cur acc)
    · rw [if_neg hws, if_neg h1, if_neg h2, if_neg h3]
      exact ih hcs _ _

/-- A command that the `command.strip()` guard treats as empty is
tokenized without error. -/
lemma shlexSplit_isSome_of_pyStripEmpty (cmd : String)
    (h : pyStripEmpty cmd = true) : ∃ r, shlexSplit cmd = some r :=
  shlexAux_norm_of_all_pyws cmd.data h none []

/-! ## Theorems for the safety-classifier claims -/

/-- C6: if `auto_approve` is false, `is_safe_to_auto_execute` returns
false unconditionally — for every configuration and every command,
including empty and whitespace-only ones — before any other check. -/
theorem not_auto_approve_never_safe (cfg : SafetyConfig) (cmd : String) :
    is_safe_to_auto_execute cfg cmd false = false := by
  simp [is_safe_to_auto_execute]

/-- C3: whenever the first shell-split token of a command is a member of
the always-approve list, `is_safe_to_auto_execute cmd true` is true,
regardless of the always-confirm list: the approve check is evaluated
first and bypasses the confirm checks. -/
theorem approve_base_hard_bypass (cfg : SafetyConfig) (cmd base : String)
    (rest : List String) (hsplit : shlexSplit cmd = some (base :: rest))
    (happr : cfg.alwaysApprove.contains base = true) :
    is_safe_to_auto_execute cfg cmd true = true := by
  by_cases hps : pyStripEmpty cmd
  · simp [is_safe_to_auto_execute, hps]
  · have hmem : base ∈ cfg.alwaysApprove := by simpa using happr
    simp [is_safe_to_auto_execute, hps, hsplit, hmem]

/-- Witness for C3: concrete instance `ls -la` under the default
configuration. -/
theorem approve_base_hard_bypass_witness :
    shlexSplit "ls -la" = some ["ls", "-la"] ∧
      DEFAULT_SAFETY_CONFIG.alwaysApprove.contains "ls" = true ∧
      is_safe_to_auto_execute DEFAULT_SAFETY_CONFIG "ls -la" true = true :=
  ⟨by decide, by decide,
    approve_base_hard_bypass DEFAULT_SAFETY_CONFIG "ls -la" "ls" ["-la"]
      (by decide) (by decide)⟩

/-- C2 counterexample: a configuration whose two lists both contain the
base command yields `true`, not `false` — the approve check runs first,
so approve (not confirm) wins when both match. -/
theorem confirm_overrides_approve_counterexample :
    is_safe_to_auto_execute ⟨["foo"], ["foo"]⟩ "foo" true = true := by
  decide

/-- C2 amended: when an invocation's base command is in both lists, the
always-approve classification overrides always-confirm, i.e. the call
returns true (approve wins, because the approve check is evaluated
first). -/
theorem approve_overrides_confirm (cfg : SafetyConfig) (cmd base : String)
    (rest : List String) (hsplit : shlexSplit cmd = some (base :: rest))
    (happr : cfg.alwaysApprove.contains base = true)
    (_hconf : cfg.alwaysConfirm.contains base = true) :
    is_safe_to_auto_execute cfg cmd true = true :=
  approve_base_hard_bypass cfg cmd base rest hsplit happr

/-- Witness for the amended C2: base `foo` in both lists. -/
theorem approve_overrides_confirm_witness :
    shlexSplit "foo" = some ["foo"] ∧
      is_safe_to_auto_execute ⟨["foo", "bar"], ["foo"]⟩ "foo" true = true :=
  ⟨by decide,
    approve_overrides_confirm ⟨["foo", "bar"], ["foo"]⟩ "foo" "foo" []
      (by decide) (by decide) (by decide)⟩

/-- C1 counterexample: with the default configuration,
`is_safe_to_auto_execute "cat file | sudo tee /etc/hosts" true` returns
`true`, not `false`: the base command `cat` is in always-approve, and
that check bypasses the confirm-list substring scan. -/
theorem substring_catch_counterexample :
    is_safe_to_auto_execute DEFAULT_SAFETY_CONFIG
      "cat file | sudo tee /etc/hosts" true = true := by
  decide

/-- C1 amended: under the default configuration the call returns true
(the approve match on base `cat` is a hard bypass); the confirm-list
substring catch on `sudo` applies only when the base command is not
approved — under the test suite's configuration (approve list without
`cat`) the same command yields false. -/
theorem substring_catch_amended :
    is_safe_to_auto_execute DEFAULT_SAFETY_CONFIG
      "cat file | sudo tee /etc/hosts" true = true ∧
    is_safe_to_auto_execute TEST_SAFETY_CONFIG
      "cat file | sudo tee /etc/hosts" true = false := by
  constructor <;> decide

/-- C5: when shell-word tokenization fails, the classifier returns
false (fails closed) for every configuration. -/
theorem tokenize_failure_fails_closed (cfg : SafetyConfig) (cmd : String)
    (h : shlexSplit cmd = none) :
    is_safe_to_auto_execute cfg cmd true = false := by
  have hps : pyStripEmpty cmd = false := by
    cases hx : pyStripEmpty cmd
    · rfl
    · obtain ⟨r, hr⟩ := shlexSplit_isSome_of_pyStripEmpty cmd hx
      rw [h] at hr
      exact absurd hr (by simp)
  simp [is_safe_to_auto_execute, hps, h]

/-- Witness for C5: an unterminated single quote. -/
theorem tokenize_failure_fails_closed_witness :
    shlexSplit "cat 'file" = none ∧
      is_safe_to_auto_execute DEFAULT_SAFETY_CONFIG "cat 'file" true = false :=
  ⟨by decide,
    tokenize_failure_fails_closed DEFAULT_SAFETY_CONFIG "cat 'file" (by decide)⟩

/-- C10: each safety-config mutation changes only its target list — the
add/remove operations on the approve list leave the confirm list
unchanged, and vice versa, for every starting configuration and every
input list of commands. -/
theorem mutations_frame_other_list (cfg : SafetyConfig) (cmds : List String) :
    (add_to_approve_list cfg cmds).alwaysConfirm = cfg.alwaysConfirm ∧
    (remove_from_approve_list cfg cmds).alwaysConfirm = cfg.alwaysConfirm ∧
    (add_to_confirm_list cfg cmds).alwaysApprove = cfg.alwaysApprove ∧
    (remove_from_confirm_list cfg cmds).alwaysApprove = cfg.alwaysApprove :=
  ⟨rfl, rfl, rfl, rfl⟩

/-! ## The REPL loop of `src/sgpt/handlers/repl_handler.py`

`ReplHandler.handle` is an infinite loop reading input lines.  We model
it as a state machine driven by the list of lines read from the user,
producing the trace of observable effects (dispatched completion
turns, command executions, synthetic system messages, confirmation
prompts).  External collaborators are oracles: `run_command` and the
completion produced by `super().handle` are functions of their string
argument, and the user's answer to the blocking execute/abort prompt
is a function of the displayed command. -/

/-- The user's answer at the `[E]xecute, [A]bort` prompt.  `click`'s
`Choice(("e", "a"), case_sensitive=False)` guarantees the answer is one
of the two. -/
inductive ConfirmChoice
  | execute  -- the user answered `e`
  | abort    -- the user answered `a` (also the default)
deriving Repr, DecidableEq

/-- Observable effects of one pass of the REPL loop body. -/
inductive Event
  | dispatch (prompt : String)     -- `super().handle(prompt=prompt, ...)`
  | exec (cmd : String)            -- `run_command(cmd)`
  | sysMsg (content : String)      -- `self.add_system_message(content)`
  | describeCmd (cmd : String)     -- the describe-shell one-shot turn
  | showUnsafe (cmd : String)      -- "Potentially unsafe command detected:"
  | askConfirm (cmd : String)      -- the blocking `[E]xecute, [A]bort` prompt
  | abortedMsg                     -- "Command aborted."
deriving Repr, DecidableEq

/-- The synthetic system message appended after an execution. -/
def sysMsgText (commandOutput : String) : String :=
  "Shell command executed:\n```\n" ++ commandOutput ++ "\n```"

/-- The environment of the loop: configuration plus the external
collaborators and the two constructor flags of `ReplHandler`. -/
structure ReplEnv where
  cfg : SafetyConfig               -- what `load_safety_config()` returns
  runCmd : String → String         -- `run_command`
  oracle : String → String         -- completion text returned by `super().handle`
  confirmAnswer : String → ConfirmChoice  -- user's execute/abort answer
  isShell : Bool                   -- `self.role.name == DefaultRoles.SHELL.value`
  autoApprove : Bool               -- `self.auto_approve`

/-- Input mode of the loop: reading a fresh line, or accumulating a
multiline block started by `\x22\x22\x22`. -/
inductive Mode
  | awaiting
  | multiline (acc : String)
deriving Repr, DecidableEq

/-- In-memory loop state: mode, the pending init prompt (consumed once)
and `full_completion`. -/
structure LoopSt where
  mode : Mode
  initPrompt : String
  fullCompletion : String
deriving Repr, DecidableEq

/-- The state at loop entry: `full_completion = ""`, awaiting a line. -/
def initLoopSt (initPrompt : String) : LoopSt :=
  { mode := .awaiting, initPrompt := initPrompt, fullCompletion := "" }

/-- The auto-execute tail of the dispatch branch (`repl_handler.py`
lines 81–110): when auto-approve is on and the role is the shell role,
consult the classifier on the produced completion; execute and append a
system message when safe, otherwise show the command, block on the
execute/abort prompt, and execute only on explicit approval. -/
def autoExecPhase (env : ReplEnv) (completion : String) : List Event :=
  if env.autoApprove && env.isShell then
    if is_safe_to_auto_execute env.cfg completion env.autoApprove then
      [.exec completion, .sysMsg (sysMsgText (env.runCmd completion))]
    else
      [.showUnsafe completion, .askConfirm completion] ++
        (match env.confirmAnswer completion with
          | .execute =>
            [.exec completion, .sysMsg (sysMsgText (env.runCmd completion))]
          | .abort => [.abortedMsg])
  else []

/-- The one-time init-prompt merge: `prompt = f"{init_prompt}\n\n\n{prompt}"`
followed by clearing the init prompt (the `if init_prompt:` block). -/
def mergeInit (st : LoopSt) (prompt : String) : String × LoopSt :=
  if st.initPrompt = "" then (prompt, st)
  else (st.initPrompt ++ "\n\n\n" ++ prompt, { st with initPrompt := "" })

/-- The mode-specific dispatch on an effective prompt `p` (after the
init-prompt merge): `e`/`d` in shell mode act on the last completion;
anything else is a dispatched turn followed by the auto-execute phase. -/
def dispatchPrompt (env : ReplEnv) (st : LoopSt) (p : String) :
    List Event × Option LoopSt :=
  if env.isShell && p = "e" then
    ([.exec st.fullCompletion,
      .sysMsg (sysMsgText (env.runCmd st.fullCompletion))], some st)
  else if env.isShell && p = "d" then
    ([.describeCmd st.fullCompletion], some st)
  else
    (Event.dispatch p :: autoExecPhase env (env.oracle p),
      some { st with fullCompletion := env.oracle p })

/-- Processing of one effective prompt (the loop body after multiline
capture): `exit()` ends the loop, otherwise merge the init prompt and
dispatch.  `none` models `typer.Exit`. -/
def processPrompt (env : ReplEnv) (st : LoopSt) (prompt : String) :
    List Event × Option LoopSt :=
  if prompt = "exit()" then ([], none)
  else dispatchPrompt env (mergeInit st prompt).2 (mergeInit st prompt).1

/-- One input line consumed: either fed to the multiline accumulator
(`_get_multiline_input`, each captured line terminated by a newline,
the terminator excluded) or processed as an effective prompt. -/
def replStep (env : ReplEnv) (st : LoopSt) (line : String) :
    List Event × Option LoopSt :=
  match st.mode with
  | .multiline acc =>
    if line = "\"\"\"" then
      processPrompt env { st with mode := .awaiting } acc
    else ([], some { st with mode := .multiline (acc ++ line ++ "\n") })
  | .awaiting =>
    if line = "\"\"\"" then ([], some { st with mode := .multiline "" })
    else processPrompt env st line

/-- How a run over a finite line list ends. -/
inductive ReplOutcome
  | exited         -- `exit()` reached: clean termination
  | awaitingInput  -- lines exhausted, loop still blocked on a read
deriving Repr, DecidableEq

/-- The trace of the loop over a list of input lines. -/
def replTrace (env : ReplEnv) (st : LoopSt) :
    List String → List Event × ReplOutcome
  | [] => ([], .awaitingInput)
  | line :: rest =>
    match replStep env st line with
    | (evs, none) => (evs, .exited)
    | (evs, some st') =>
      let tl := replTrace env st' rest
      (evs ++ tl.1, tl.2)

/-! ## Theorems for the REPL claims -/

/-- C4: in shell-role REPL mode with auto-approve on, when the
classifier rejects the produced completion the command is shown and the
blocking execute/abort prompt raised; the executor runs iff the user
answers execute; on abort nothing is executed and no synthetic system
message is appended. -/
theorem unsafe_rejection_prompts_confirmation (env : ReplEnv)
    (completion : String) (evs : List Event)
    (hauto : env.autoApprove = true) (hshell : env.isShell = true)
    (hrej : is_safe_to_auto_execute env.cfg completion true = false)
    (hevs : evs = autoExecPhase env completion) :
    (Event.showUnsafe completion ∈ evs ∧ Event.askConfirm completion ∈ evs) ∧
    (Event.exec completion ∈ evs ↔ env.confirmAnswer completion = .execute) ∧
    (env.confirmAnswer completion = .abort →
      (∀ c, Event.exec c ∉ evs) ∧ (∀ s, Event.sysMsg s ∉ evs)) := by
  subst hevs
  unfold autoExecPhase
  rw [hauto, hshell]
  simp only [Bool.and_self, if_true, hrej, Bool.false_eq_true, if_false]
  cases hans : env.confirmAnswer completion <;> simp [hans]

/-- Witness for C4: default config rejects `rm -rf /`; the user aborts. -/
theorem unsafe_rejection_prompts_confirmation_witness :
    let env : ReplEnv :=
      ⟨DEFAULT_SAFETY_CONFIG, fun _ => "out", fun _ => "rm -rf /",
        fun _ => .abort, true, true⟩
    (Event.showUnsafe "rm -rf /" ∈ autoExecPhase env "rm -rf /" ∧
      Event.askConfirm "rm -rf /" ∈ autoExecPhase env "rm -rf /") ∧
    (Event.exec "rm -rf /" ∈ autoExecPhase env "rm -rf /" ↔
      env.confirmAnswer "rm -rf /" = .execute) ∧
    (env.confirmAnswer "rm -rf /" = .abort →
      (∀ c, Event.exec c ∉ autoExecPhase env "rm -rf /") ∧
      (∀ s, Event.sysMsg s ∉ autoExecPhase env "rm -rf /")) :=
  unsafe_rejection_prompts_confirmation _ "rm -rf /" _ rfl rfl (by decide) rfl

/-! ### No execution without an explicit `e` when auto-approve is off -/

/-- A multiline accumulator value: empty, or newline-terminated. -/
def NlAcc (s : String) : Prop := s = "" ∨ ∃ p : String, s = p ++ "\n"

/-- Loop-state invariant: an open multiline accumulator satisfies
`NlAcc`. -/
def GoodSt (st : LoopSt) : Prop :=
  ∀ acc, st.mode = .multiline acc → NlAcc acc

/-- A newline-terminated (or empty) accumulator is never the single
letter `e`. -/
lemma NlAcc.ne_e {s : String} (h : NlAcc s) : s ≠ "e" := by
  rcases h with h | ⟨p, h⟩
  · subst h; decide
  · subst h
    intro heq
    have hd := congrArg String.data heq
    rw [String.data_append] at hd
    have hlen := congrArg List.length hd
    rw [List.length_append] at hlen
    have h1 : "\n".data.length = 1 := rfl
    have h2 : "e".data.length = 1 := rfl
    have hp : p.data = [] := List.length_eq_zero.mp (by omega)
    rw [hp, List.nil_append] at hd
    exact absurd hd (by decide)

/-- Merging a nonempty init prompt never produces the prompt `e`. -/
lemma merged_ne_e (ip l : String) (h : ip ≠ "") : ip ++ "\n\n\n" ++ l ≠ "e" := by
  intro heq
  have hd := congrArg String.data heq
  rw [String.data_append, String.data_append] at hd
  have hlen := congrArg List.length hd
  rw [List.length_append, List.length_append] at hlen
  have h3 : "\n\n\n".data.length = 3 := rfl
  have h2 : "e".data.length = 1 := rfl
  rw [h3, h2] at hlen
  have hip : ip.data ≠ [] := by
    intro hnil
    exact h (String.ext hnil)
  have hpos : 0 < ip.data.length := List.length_pos.mpr hip
  omega

/-- With auto-approve off, the auto-execute phase does nothing. -/
lemma autoExecPhase_off (env : ReplEnv) (hauto : env.autoApprove = false)
    (completion : String) : autoExecPhase env completion = [] := by
  simp [autoExecPhase, hauto]

/-- With auto-approve off, dispatching an effective prompt other than
`e` never invokes the command executor. -/
lemma dispatchPrompt_no_exec (env : ReplEnv) (st : LoopSt) (p : String)
    (hauto : env.autoApprove = false) (hpe : p ≠ "e") (c : String) :
    Event.exec c ∉ (dispatchPrompt env st p).1 := by
  unfold dispatchPrompt
  simp only [hpe, decide_False, Bool.and_false, Bool.false_eq_true, if_false]
  split
  · simp
  · simp [autoExecPhase_off env hauto]

/-- With auto-approve off, processing a raw prompt other than `e` never
invokes the command executor. -/
lemma processPrompt_no_exec (env : ReplEnv) (st : LoopSt) (p : String)
    (hauto : env.autoApprove = false) (hpe : p ≠ "e") (c : String) :
    Event.exec c ∉ (processPrompt env st p).1 := by
  unfold processPrompt
  by_cases hx : p = "exit()"
  · simp [hx]
  · rw [if_neg hx]
    have hne : (mergeInit st p).1 ≠ "e" := by
      unfold mergeInit
      by_cases hip : st.initPrompt = ""
      · simpa [hip] using hpe
      · simpa [hip] using merged_ne_e st.initPrompt p hip
    exact dispatchPrompt_no_exec env _ _ hauto hne c

/-- `mergeInit` does not change the input mode. -/
lemma mergeInit_mode (st : LoopSt) (p : String) :
    (mergeInit st p).2.mode = st.mode := by
  unfold mergeInit
  split <;> rfl

/-- `dispatchPrompt` does not change the input mode. -/
lemma dispatchPrompt_mode (env : ReplEnv) (st : LoopSt) (p : String)
    (st' : LoopSt) (h : (dispatchPrompt env st p).2 = some st') :
    st'.mode = st.mode := by
  unfold dispatchPrompt at h
  split at h
  · cases h with | refl => rfl
  · split at h
    · cases h with | refl => rfl
    · cases h with | refl => rfl

/-- `processPrompt` does not change the input mode. -/
lemma processPrompt_mode (env : ReplEnv) (st : LoopSt) (p : String)
    (st' : LoopSt) (h : (processPrompt env st p).2 = some st') :
    st'.mode = st.mode := by
  unfold processPrompt at h
  split at h
  · exact absurd h (by simp)
  · rw [dispatchPrompt_mode env _ _ st' h, mergeInit_mode]

/-- One loop step preserves the accumulator invariant. -/
lemma replStep_good (env : ReplEnv) (st : LoopSt) (line : String)
    (hgood : GoodSt st) (st' : LoopSt)
    (h : (replStep env st line).2 = some st') : GoodSt st' := by
  obtain ⟨mode, ip0, fc0⟩ := st
  cases mode with
  | awaiting =>
    simp only [replStep] at h
    by_cases hq : line = "\"\"\""
    · rw [if_pos hq] at h
      simp only [Option.some.injEq] at h
      subst h
      intro acc hx
      simp only [Mode.multiline.injEq] at hx
      exact Or.inl hx.symm
    · rw [if_neg hq] at h
      intro acc hx
      rw [processPrompt_mode env _ line st' h] at hx
      simp at hx
  | multiline acc0 =>
    simp only [replStep] at h
    by_cases hq : line = "\"\"\""
    · rw [if_pos hq] at h
      intro acc hx
      rw [processPrompt_mode env _ acc0 st' h] at hx
      simp at hx
    · rw [if_neg hq] at h
      simp only [Option.some.injEq] at h
      subst h
      intro acc hx
      simp only [Mode.multiline.injEq] at hx
      exact Or.inr ⟨acc0 ++ line, by rw [← hx]⟩

/-- One loop step on a line other than `e`, with auto-approve off,
never invokes the command executor. -/
lemma replStep_no_exec (env : ReplEnv) (st : LoopSt) (line : String)
    (hauto : env.autoApprove = false) (hgood : GoodSt st)
    (hle : line ≠ "e") (c : String) :
    Event.exec c ∉ (replStep env st line).1 := by
  obtain ⟨mode, ip0, fc0⟩ := st
  cases mode with
  | awaiting =>
    simp only [replStep]
    by_cases hq : line = "\"\"\""
    · simp [hq]
    · rw [if_neg hq]
      exact processPrompt_no_exec env _ line hauto hle c
  | multiline acc =>
    simp only [replStep]
    by_cases hq : line = "\"\"\""
    · rw [if_pos hq]
      exact processPrompt_no_exec env _ acc hauto
        (NlAcc.ne_e (hgood acc rfl)) c
    · simp [hq]

/-- Unfolding lemma for the trace on a cons cell. -/
lemma replTrace_cons (env : ReplEnv) (st : LoopSt) (line : String)
    (rest : List String) :
    replTrace env st (line :: rest) =
      match replStep env st line with
      | (evs, none) => (evs, .exited)
      | (evs, some st') =>
        (evs ++ (replTrace env st' rest).1, (replTrace env st' rest).2) :=
  rfl

/-- Auxiliary induction for C9, generalised over any invariant-holding
start state. -/
lemma exec_in_trace_requires_e (env : ReplEnv)
    (hauto : env.autoApprove = false) :
    ∀ (lines : List String) (st : LoopSt), GoodSt st → ∀ c : String,
      Event.exec c ∈ (replTrace env st lines).1 → "e" ∈ lines := by
  intro lines
  induction lines with
  | nil => intro st _ c h; simp [replTrace] at h
  | cons line rest ih =>
    intro st hgood c h
    by_cases hle : line = "e"
    · subst hle; exact List.mem_cons_self _ _
    · have hstep := replStep_no_exec env st line hauto hgood hle c
      rw [replTrace_cons] at h
      rcases hres : replStep env st line with ⟨evs, ost⟩
      rw [hres] at h hstep
      cases ost with
      | none => exact absurd h hstep
      | some st' =>
        simp only [List.mem_append] at h
        rcases h with h | h
        · exact absurd h hstep
        · have hgood' : GoodSt st' := by
            apply replStep_good env st line hgood st'
            rw [hres]
          exact List.mem_cons_of_mem _ (ih st' hgood' c h)

/-- C9: in shell-role REPL mode with auto-approve disabled, no
dispatched turn ever invokes the command executor: over any run from
the loop's entry state, an execution event occurs only if the user
entered the line `e`. -/
theorem exec_only_on_explicit_e (env : ReplEnv)
    (hauto : env.autoApprove = false) (ip c : String) (lines : List String)
    (h : Event.exec c ∈ (replTrace env (initLoopSt ip) lines).1) :
    "e" ∈ lines :=
  exec_in_trace_requires_e env hauto lines (initLoopSt ip)
    (fun _ hx => by cases hx) c h

/-- Witness for C9: a dispatched turn produces `ls`, the user then
enters `e`, and the resulting execution is indeed covered by the `e`
line being present. -/
theorem exec_only_on_explicit_e_witness :
    Event.exec "ls" ∈
      (replTrace
        ⟨DEFAULT_SAFETY_CONFIG, fun _ => "out", fun _ => "ls",
          fun _ => .abort, true, false⟩
        (initLoopSt "") ["list files", "e", "exit()"]).1 ∧
    "e" ∈ ["list files", "e", "exit()"] :=
  ⟨by decide,
    exec_only_on_explicit_e
      ⟨DEFAULT_SAFETY_CONFIG, fun _ => "out", fun _ => "ls",
        fun _ => .abort, true, false⟩
      rfl "" "ls" ["list files", "e", "exit()"] (by decide)⟩

/-- C8: the line stream `['\x22\x22\x22', "line1", "line2??", '\x22\x22\x22',
"exit()"]`, with no init prompt, dispatches exactly one turn with
effective prompt `"line1\nline2??\n"` and then terminates cleanly, for
any role, completion oracle, and executor (auto-approve off). -/
theorem multiline_block_single_dispatch (cfg : SafetyConfig)
    (runCmd oracle : String → String) (ans : String → ConfirmChoice)
    (isShell : Bool) :
    replTrace ⟨cfg, runCmd, oracle, ans, isShell, false⟩ (initLoopSt "")
        ["\"\"\"", "line1", "line2??", "\"\"\"", "exit()"] =
      ([Event.dispatch "line1\nline2??\n"], .exited) := by
  cases isShell <;> rfl

/-! ## The question-style prompt cleaning of
`src/sgpt/handlers/question_handler.py` -/

/-- Python `s.rstrip(chars)` for a character class `p`: remove the
maximal trailing run of characters satisfying `p`. -/
def rstripP (s : String) (p : Char → Bool) : String :=
  ⟨(s.data.reverse.dropWhile p).reverse⟩

/-- The trailing run removed by `rstripP` (so that
`s = rstripP s p ++ strippedSuffix s p`). -/
def strippedSuffix (s : String) (p : Char → Bool) : String :=
  ⟨(s.data.reverse.takeWhile p).reverse⟩

/-- Membership in the `'?'` strip set of `rstrip('?')`. -/
def isQm (c : Char) : Bool := c = '?'

/-- `prompt.endswith("??")`. -/
def endsWithQQ (s : String) : Bool :=
  decide (s.data.reverse.take 2 = ['?', '?'])

/-- The prompt cleaning in `QuestionHandler.handle`:
`prompt.rstrip('?').rstrip() if prompt.endswith('??') else prompt`.
Note `rstrip('?')` removes every trailing question mark, not only the
two of the marker. -/
def cleanQuestionPrompt (prompt : String) : String :=
  if endsWithQQ prompt then rstripP (rstripP prompt isQm) isPyWs else prompt

/-- Python `s.strip()` (ASCII whitespace), as applied in
`self.make_messages(clean_prompt.strip())`. -/
def pyStrip (s : String) : String :=
  ⟨((s.data.dropWhile isPyWs).reverse.dropWhile isPyWs).reverse⟩

/-- The content of the user message built for the question turn. -/
def questionUserContent (prompt : String) : String :=
  pyStrip (cleanQuestionPrompt prompt)

/-! ### Lemmas about right-stripping -/

/-- The head of `dropWhile` never satisfies the predicate. -/
lemma head_dropWhile_false (p : Char → Bool) :
    ∀ (l : List Char) (c : Char), (l.dropWhile p).head? = some c →
      p c = false := by
  intro l
  induction l with
  | nil => intro c h; cases h
  | cons a as ih =>
    intro c h
    by_cases hp : p a = true
    · rw [List.dropWhile_cons_of_pos hp] at h
      exact ih c h
    · rw [List.dropWhile_cons_of_neg hp] at h
      simp only [List.head?_cons, Option.some.injEq] at h
      subst h
      cases hb : p a
      · rfl
      · exact absurd hb hp

/-- Every character of `takeWhile p` satisfies `p`. -/
lemma takeWhile_all (p : Char → Bool) :
    ∀ l : List Char, (l.takeWhile p).all p = true := by
  intro l
  induction l with
  | nil => rfl
  | cons a as ih =>
    by_cases hp : p a = true
    · rw [List.takeWhile_cons_of_pos hp]
      simp [hp, ih]
    · rw [List.takeWhile_cons_of_neg hp]
      rfl

/-- `rstripP` decomposition: the original string is the stripped result
followed by the removed suffix. -/
lemma rstripP_append_suffix (s : String) (p : Char → Bool) :
    s = rstripP s p ++ strippedSuffix s p := by
  apply String.ext
  rw [String.data_append]
  show s.data =
    (s.data.reverse.dropWhile p).reverse ++ (s.data.reverse.takeWhile p).reverse
  rw [← List.reverse_append, List.takeWhile_append_dropWhile,
    List.reverse_reverse]

/-- The removed suffix consists only of characters satisfying `p`. -/
lemma strippedSuffix_all (s : String) (p : Char → Bool) :
    (strippedSuffix s p).data.all p = true := by
  show (s.data.reverse.takeWhile p).reverse.all p = true
  rw [List.all_reverse]
  exact takeWhile_all p _

/-- After `rstripP`, the last character (if any) does not satisfy `p`:
the strip is maximal. -/
lemma rstripP_getLast_false (s : String) (p : Char → Bool) (c : Char)
    (h : (rstripP s p).data.getLast? = some c) : p c = false := by
  have h' : (s.data.reverse.dropWhile p).head? = some c := by
    rw [← List.getLast?_reverse]
    exact h
  exact head_dropWhile_false p _ c h'

/-! ### Theorems for C7 -/

/-- C7 counterexample: on the prompt `what???` the code strips all
three trailing question marks, not exactly the two of the marker: the
cleaned prompt is `what`, not `what?`. -/
theorem question_strip_counterexample :
    cleanQuestionPrompt "what???" = "what" ∧
      cleanQuestionPrompt "what???" ≠ "what?" := by
  constructor <;> decide

/-- C7 amended: prompts not ending in `??` are passed through the
cleaning step unchanged; a prompt ending in `??` is decomposed as
`clean ++ ws ++ qs` where `qs` is the (nonempty, maximal) trailing run
of question marks — all of them, not just two — and `ws` the (maximal)
trailing whitespace run before it. -/
theorem question_strip_amended (prompt : String) :
    (endsWithQQ prompt = false → cleanQuestionPrompt prompt = prompt) ∧
    (endsWithQQ prompt = true →
      ∃ ws qs : String,
        prompt = (cleanQuestionPrompt prompt ++ ws) ++ qs ∧
        qs ≠ "" ∧
        qs.data.all isQm = true ∧
        ws.data.all isPyWs = true ∧
        (∀ c, (cleanQuestionPrompt prompt ++ ws).data.getLast? = some c →
          isQm c = false) ∧
        (∀ c, (cleanQuestionPrompt prompt).data.getLast? = some c →
          isPyWs c = false)) := by
  constructor
  · intro hqq
    simp [cleanQuestionPrompt, hqq]
  · intro hqq
    have hclean : cleanQuestionPrompt prompt = rstripP (rstripP prompt isQm) isPyWs := by
      simp [cleanQuestionPrompt, hqq]
    refine ⟨strippedSuffix (rstripP prompt isQm) isPyWs,
      strippedSuffix prompt isQm, ?_, ?_, ?_, ?_, ?_, ?_⟩
    · rw [hclean, ← rstripP_append_suffix (rstripP prompt isQm) isPyWs,
        ← rstripP_append_suffix prompt isQm]
    · -- the question-mark run is nonempty since the prompt ends in ??
      have h2 : prompt.data.reverse.take 2 = ['?', '?'] := by
        simpa [endsWithQQ] using hqq
      have hsplit : prompt.data.reverse =
          '?' :: '?' :: prompt.data.reverse.drop 2 := by
        conv_lhs => rw [← List.take_append_drop 2 prompt.data.reverse]
        rw [h2]
        rfl
      intro hq
      have hd : (strippedSuffix prompt isQm).data = [] := by
        rw [hq]
      have : (prompt.data.reverse.takeWhile isQm).reverse = [] := hd
      rw [hsplit, List.takeWhile_cons_of_pos (by rfl)] at this
      simp at this
    · exact strippedSuffix_all prompt isQm
    · exact strippedSuffix_all (rstripP prompt isQm) isPyWs
    · intro c hc
      rw [hclean, ← rstripP_append_suffix (rstripP prompt isQm) isPyWs] at hc
      exact rstripP_getLast_false prompt isQm c hc
    · intro c hc
      rw [hclean] at hc
      exact rstripP_getLast_false (rstripP prompt isQm) isPyWs c hc

/-- Witness for the amended C7, at the prompt `what???`. -/
theorem question_strip_amended_witness :
    ∃ ws qs : String,
      "what???" = (cleanQuestionPrompt "what???" ++ ws) ++ qs ∧
      qs ≠ "" ∧
      qs.data.all isQm = true ∧
      ws.data.all isPyWs = true ∧
      (∀ c, (cleanQuestionPrompt "what???" ++ ws).data.getLast? = some c →
        isQm c = false) ∧
      (∀ c, (cleanQuestionPrompt "what???").data.getLast? = some c →
        isPyWs c = false) :=
  (question_strip_amended "what???").2 (by decide)

end SGpt
